import Mathlib

/-!
Shallow embedding of the `editorjs-embed` tool (`src/index.js`).

The embedding covers the classification-and-resolution core of the tool:
URL classification (`_checkedUrl`), embed resolution (`_getEmbedData`),
metadata normalization (`_getOgData`), the service registry construction
(`prepare` / `checkServiceConfig`), and the persisted-data state machine
(`set data` / `get data` / `save` / constructor).

JavaScript regular expressions are embedded abstractly as a pair of pure
functions (`test`, `exec`); the one regex literal that the classification
code constructs itself (the generic `etc` fallback pattern) is embedded
concretely, character by character.  JavaScript's `undefined`-vs-string
distinction is embedded as `Option String` (or the `JsPrim` / `JsField`
universes where a field may hold a regex or a function), and JavaScript
truthiness of those values is spelled out explicitly.
-/

set_option autoImplicit false

/-- A primitive JavaScript value as it appears in regex capture lists and
id-extractor results: either `undefined` or a string. -/
inductive JsPrim where
  | undefined
  | str (s : String)
deriving DecidableEq

/-- Stringification applied by `String.prototype.replace` to a non-function
replacement value: `undefined` prints as `"undefined"`. -/
def JsPrim.toReplacement : JsPrim → String
  | .undefined => "undefined"
  | .str s => s

/-- A JavaScript `RegExp`, embedded abstractly as its two observable pure
operations: `test` (used by `_checkedUrl`) and `exec` (used by
`_getEmbedData`; `none` embeds JavaScript's `null` result, and the list is
the match array: full match at index 0 followed by the capture groups,
where an unmatched group is `undefined`). -/
structure JSRegExp where
  test : String → Bool
  exec : String → Option (List JsPrim)

/-- A JavaScript value stored in a field of a service descriptor:
`undefined`, a string, a `RegExp`, a function (id extractor), or any other
value (of which only the truthiness is observable by the embedded code). -/
inductive JsField where
  | undefined
  | str (s : String)
  | regexp (re : JSRegExp)
  | fn (f : List JsPrim → JsPrim)
  | other (truthy : Bool)

/-- JavaScript truthiness of a `JsField` value: `undefined` is falsy, a
string is truthy iff non-empty, objects (`RegExp`) and functions are
truthy. -/
def JsField.truthy : JsField → Bool
  | .undefined => false
  | .str s => s ≠ ""
  | .regexp _ => true
  | .fn _ => true
  | .other t => t

/-- A service descriptor as stored in `Embed.services` (and as supplied by
the caller in the configuration): the four fields the code destructures.
A field absent from the underlying JavaScript object is `undefined`. -/
structure Service where
  regex : JsField
  embedUrl : JsField
  html : JsField
  id : JsField

/-- The character class of the generic fallback regex in `_checkedUrl`:
`[a-zA-Z0-9\-\._\?\,\'\/\\\+&%\$#\=~:]`. -/
def etcClassChar (c : Char) : Bool :=
  c.isAlpha || c.isDigit ||
  c == '-' || c == '.' || c == '_' || c == '?' || c == ',' ||
  c == Char.ofNat 39 || c == '/' || c == '\\' || c == '+' || c == '&' ||
  c == '%' || c == '$' || c == '#' || c == '=' || c == '~' || c == ':'

/-- Greedily take the longest run of characters in the generic pattern's
character class (the `[...]+` part, minus the non-emptiness requirement). -/
def takeClassRun : List Char → List Char
  | [] => []
  | c :: rest => if etcClassChar c then c :: takeClassRun rest else []

/-- Try the generic fallback regex
`(?:http[s]?:\/\/)|(?:www\.)([...]+)` at one fixed start position: first
the `http(s)://` alternative (with greedy `[s]?`), then the
`www.`-followed-by-a-nonempty-class-run alternative. -/
def etcExecAt (s : List Char) : Option (List JsPrim) :=
  if List.isPrefixOf "https://".toList s then
    some [JsPrim.str "https://", JsPrim.undefined]
  else if List.isPrefixOf "http://".toList s then
    some [JsPrim.str "http://", JsPrim.undefined]
  else if List.isPrefixOf "www.".toList s then
    match takeClassRun (s.drop 4) with
    | [] => none
    | c :: run =>
      some [JsPrim.str (String.mk ("www.".toList ++ (c :: run))),
            JsPrim.str (String.mk (c :: run))]
  else none

/-- Scan of the generic fallback regex over all start positions, leftmost
match first (the regex engine's unanchored search). -/
def etcExecChars : List Char → Option (List JsPrim)
  | [] => none
  | c :: rest =>
    match etcExecAt (c :: rest) with
    | some r => some r
    | none => etcExecChars rest

/-- `test` of the generic fallback regex of `_checkedUrl`. -/
def etcTest (url : String) : Bool :=
  (etcExecChars url.toList).isSome

/-- The generic fallback `RegExp` that `_checkedUrl` constructs at call
time under the key `etc`. -/
def etcRegex : JSRegExp :=
  { test := etcTest, exec := fun url => etcExecChars url.toList }

/-- The pattern table actually iterated by `_checkedUrl`: the object
literal `{...Embed.patterns, etc}`.  JavaScript object-literal semantics:
if the key `etc` is already present in the spread, the later `etc` entry
overwrites its value but keeps the original position; otherwise `etc` is
appended at the end. -/
def patternsWithEtc (ps : List (String × JSRegExp)) : List (String × JSRegExp) :=
  if ps.any (fun kv => kv.1 == "etc") then
    ps.map (fun kv => if kv.1 = "etc" then ("etc", etcRegex) else kv)
  else
    ps ++ [("etc", etcRegex)]

/-- `_checkedUrl`'s classification result: iterate the pattern table (with
the generic `etc` entry) with `Array.prototype.some`, recording the key of
the first pattern whose `test` accepts the URL; the `service` variable
stays `""` when nothing matches. -/
def checkedUrl (ps : List (String × JSRegExp)) (url : String) : String :=
  match (patternsWithEtc ps).find? (fun kv => kv.2.test url) with
  | some kv => kv.1
  | none => ""


/-- The `url` field of an Open-Graph / Twitter-card image object in the
metadata payload (`ogImage?.url`, `twitterImage?.url`). -/
structure OgImage where
  url : Option String
deriving DecidableEq

/-- The raw metadata record destructured from the collaborator's JSON
response in `_getOgData`; `none` embeds an absent (`undefined`) field. -/
structure RawMetadata where
  ogTitle : Option String
  ogDescription : Option String
  ogImage : Option OgImage
  ogUrl : Option String
  ogSiteName : Option String
  twitterTitle : Option String
  twitterDescription : Option String
  twitterImage : Option OgImage
  twitterSite : Option String
  requestUrl : Option String
  favicon : Option String
deriving DecidableEq

/-- The raw metadata record with every field absent. -/
def emptyMeta : RawMetadata :=
  { ogTitle := none, ogDescription := none, ogImage := none, ogUrl := none,
    ogSiteName := none, twitterTitle := none, twitterDescription := none,
    twitterImage := none, twitterSite := none, requestUrl := none,
    favicon := none }

/-- The normalized link-preview record returned by `_getOgData`. -/
structure LinkPreview where
  title : String
  description : String
  imageUrl : String
  url : String
  icon : String
  siteName : String
deriving DecidableEq

/-- JavaScript `a || b` where `a` is a string-or-`undefined` and `b` is
already a string: the empty string and `undefined` are falsy. -/
def jsOrStr (a : Option String) (b : String) : String :=
  match a with
  | some s => if s = "" then b else s
  | none => b

/-- Substring test on character lists: does some suffix of the second list
start with the first list?  This is `String.prototype.includes` of the
pattern in the subject. -/
def containsSub (pat : List Char) : List Char → Bool
  | [] => pat.isEmpty
  | c :: rest => List.isPrefixOf pat (c :: rest) || containsSub pat rest

/-- The pure normalization step of `_getOgData` (the surrounding fetch is
the external collaborator): every output field is an `||`-fallback chain
over the raw fields, except `icon`, which is the favicon gated by
`favicon?.includes('https://')`. -/
def getOgData (r : RawMetadata) : LinkPreview :=
  { title := jsOrStr r.ogTitle (jsOrStr r.twitterTitle ""),
    description := jsOrStr r.ogDescription (jsOrStr r.twitterDescription ""),
    imageUrl := jsOrStr (r.ogImage.bind OgImage.url)
      (jsOrStr (r.twitterImage.bind OgImage.url) ""),
    url := jsOrStr r.ogUrl (jsOrStr r.requestUrl ""),
    icon :=
      match r.favicon with
      | some s => if containsSub "https://".toList s.toList then s else ""
      | none => "",
    siteName := jsOrStr r.ogSiteName (jsOrStr r.twitterSite
      (jsOrStr r.ogTitle (jsOrStr r.twitterTitle ""))) }

/-- The first non-empty, non-absent string of a fallback chain, and the
empty string when there is none (specification-side description of an
`||`-fallback chain, stated via `find?`). -/
def firstNonEmpty (chain : List (Option String)) : String :=
  match chain.find? (fun o => o.getD "" != "") with
  | some o => o.getD ""
  | none => ""


/-- The private `_data` of an `Embed` instance, restricted to the four
persisted fields; `none` embeds an absent (`undefined`) property. -/
structure EmbedState where
  service : Option String
  source : Option String
  embed : Option String
  caption : Option String
deriving DecidableEq

/-- A data object handed to the `data` setter (previously saved data, or
the `{service, source}` object built by `_checkedUrl`); restricted to the
four fields the tool ever reads back. -/
structure IncomingData where
  service : Option String
  source : Option String
  embed : Option String
  caption : Option String
deriving DecidableEq

/-- JavaScript truthiness of a string-or-`undefined` value. -/
def strTruthy : Option String → Bool
  | some s => s ≠ ""
  | none => false

/-- The `set data` accessor:
`this._data = { ...data, caption: data.caption || this.data.caption || '' }`.
All fields are taken from the incoming object (the spread preserves
absence), except `caption`, which falls back to the previously stored
caption and then to the empty string. -/
def setData (st : EmbedState) (d : IncomingData) : EmbedState :=
  { service := d.service, source := d.source, embed := d.embed,
    caption :=
      if strTruthy d.caption then d.caption
      else if strTruthy st.caption then st.caption
      else some "" }

/-- The instance state set up by the constructor before `this.data = data`
runs: `this._data = {}`. -/
def initialState : EmbedState :=
  { service := none, source := none, embed := none, caption := none }

/-- The `get data` accessor (equal to `this._data` on the pure,
element-free path) viewed as a data object, as returned by `save()`. -/
def saveData (st : EmbedState) : IncomingData :=
  { service := st.service, source := st.source, embed := st.embed,
    caption := st.caption }

/-- The constructor applied to a data argument: initializes `_data` to the
empty object and then runs the `data` setter. -/
def mkEmbed (d : IncomingData) : EmbedState :=
  setData initialState d

/-- The `{ service, source: url }` object that `_checkedUrl` assigns to
`this.data` after classification (no `embed`, no `caption` property). -/
def checkedUrlData (ps : List (String × JSRegExp)) (url : String) : IncomingData :=
  { service := some (checkedUrl ps url), source := some url,
    embed := none, caption := none }

/-- The full effect of `_checkedUrl` on the stored data: classify, then
assign through the `data` setter. -/
def checkedUrlStep (st : EmbedState) (ps : List (String × JSRegExp)) (url : String) : EmbedState :=
  setData st (checkedUrlData ps url)

/-- The default id extractor of `_getEmbedData`:
`(ids) => ids.shift()`, i.e. the first capture group, `undefined` when the
capture list is empty. -/
def defaultIdFn (ids : List JsPrim) : JsPrim :=
  ids.headD JsPrim.undefined

/-- Calling the service's id extractor: the destructuring default kicks in
exactly when the `id` field is `undefined`; calling any other non-function
value throws (embedded as `none`). -/
def idResult : JsField → List JsPrim → Option JsPrim
  | .undefined, ids => some (defaultIdFn ids)
  | .fn f, ids => some (f ids)
  | _, _ => none

/-- The placeholder token of embed-URL templates. -/
def remoteIdToken : List Char := "<%= remote_id %>".toList

/-- Replace every (non-overlapping, left-to-right) occurrence of the
placeholder token, with a fuel argument for structural recursion; one
character is consumed per step, so fuel equal to the input length
suffices. -/
def replaceAllAux (repl : List Char) : Nat → List Char → List Char
  | _, [] => []
  | 0, s => s
  | fuel + 1, c :: rest =>
    if List.isPrefixOf remoteIdToken (c :: rest) then
      repl ++ replaceAllAux repl fuel (rest.drop (remoteIdToken.length - 1))
    else
      c :: replaceAllAux repl fuel rest

/-- `embedUrl.replace(/<%= remote_id %>/g, repl)` for a string
replacement: global (replace-all) substitution of the literal token. -/
def replaceRemoteId (repl : String) (u : String) : String :=
  String.mk (replaceAllAux repl.toList u.toList.length u.toList)


/-- The pure part of `_getEmbedData`: destructure the service, run
`regex.exec(source).slice(1)`, call the id extractor, and substitute the
result into the template.  `none` embeds the thrown `TypeError` paths
(`exec` returning `null`, a non-`RegExp` pattern, a non-string template,
a non-callable non-`undefined` id). -/
def embedOf (svc : Service) (source : String) : Option (JsField × String) :=
  match svc.regex, svc.embedUrl with
  | .regexp re, .str u =>
    match re.exec source with
    | none => none
    | some arr =>
      match idResult svc.id (arr.drop 1) with
      | none => none
      | some v => some (svc.html, replaceRemoteId (JsPrim.toReplacement v) u)
  | _, _ => none

/-- `_getEmbedData` including its one side effect: on success it stores
the resolved locator in `this.data.embed` and returns `{ html, embed }`. -/
def getEmbedData (st : EmbedState) (svc : Service) (source : String) :
    Option (EmbedState × JsField × String) :=
  match embedOf svc source with
  | none => none
  | some (h, e) => some ({ st with embed := some e }, h, e)

/-- A value of the caller-supplied `config.services` object: a boolean
flag, a service-shaped object, or any other value (which both filters in
`prepare` discard, since its `typeof` is neither `boolean` nor
`object`). -/
inductive ConfigVal where
  | bool (b : Bool)
  | obj (raw : Service)
  | other

/-- `value instanceof RegExp`. -/
def isRegexpField : JsField → Bool
  | .regexp _ => true
  | _ => false

/-- `typeof value === 'string'`. -/
def isStrField : JsField → Bool
  | .str _ => true
  | _ => false

/-- `id !== undefined ? id instanceof Function : true`. -/
def isIdOkField : JsField → Bool
  | .undefined => true
  | .fn _ => true
  | _ => false

/-- `Embed.checkServiceConfig`: the pattern must be a (truthy) `RegExp`,
the embed template and the preview markup truthy strings, and the id
extractor, when not `undefined`, a `Function`. -/
def checkServiceConfig (c : Service) : Bool :=
  (c.regex.truthy && isRegexpField c.regex) &&
  (c.embedUrl.truthy && isStrField c.embedUrl) &&
  (c.html.truthy && isStrField c.html) &&
  isIdOkField c.id

/-- `Object.assign({}, result[key], service)` on a collision in the
registry reduction.  The later object is always a user-supplied service
built by `prepare`'s mapping step, which owns all four properties
(`id` with value `undefined` when the caller omitted it), so every modeled
field is overwritten by the later entry. -/
def mergeService (_a b : Service) : Service :=
  { regex := b.regex, embedUrl := b.embedUrl, html := b.html, id := b.id }

/-- One `result[key] = v` (or merge) step of a JavaScript object built by
`reduce`: an existing key keeps its insertion position and has its value
merged, a fresh key is appended. -/
def objUpsert {α : Type} (merge : α → α → α) (l : List (String × α))
    (k : String) (v : α) : List (String × α) :=
  if l.any (fun kv => kv.1 == k) then
    l.map (fun kv => if kv.1 = k then (kv.1, merge kv.2 v) else kv)
  else
    l ++ [(k, v)]

/-- A JavaScript object built from an entry list by `reduce`, as an
insertion-ordered association list: first occurrence of a key fixes its
position, later occurrences merge into its value. -/
def objFromEntriesWith {α : Type} (merge : α → α → α)
    (entries : List (String × α)) : List (String × α) :=
  entries.foldl (fun acc kv => objUpsert merge acc kv.1 kv.2) []

/-- Lookup in an insertion-ordered association list (property access on
the built object). -/
def lookupKV {α : Type} : List (String × α) → String → Option α
  | [], _ => none
  | kv :: rest, k => if kv.1 = k then some kv.2 else lookupKV rest k

/-- The names of the default services enabled by `true` flags in the
caller configuration (`typeof value === 'boolean' && value === true`). -/
def enabledNames (cfg : List (String × ConfigVal)) : List String :=
  (cfg.filter (fun kv => match kv.2 with | .bool true => true | _ => false)).map Prod.fst

/-- The caller-supplied service descriptors that survive validation, with
the four destructured fields repacked into a fresh object (so the `id`
property is always own, possibly with value `undefined`). -/
def userEntries (cfg : List (String × ConfigVal)) : List (String × Service) :=
  cfg.filterMap (fun kv =>
    match kv.2 with
    | .obj raw =>
      if checkServiceConfig raw then
        some (kv.1, ({ regex := raw.regex, embedUrl := raw.embedUrl,
                       html := raw.html, id := raw.id } : Service))
      else none
    | _ => none)

/-- The merged entry list of `prepare`: the defaults, filtered by the
enable-list when that list is non-empty, followed by the validated
caller-supplied services. -/
def prepareEntries (defaults : List (String × Service))
    (cfg : List (String × ConfigVal)) : List (String × Service) :=
  (if enabledNames cfg ≠ [] then
     defaults.filter (fun kv => (enabledNames cfg).contains kv.1)
   else defaults) ++ userEntries cfg

/-- The two static tables `prepare` leaves behind. -/
structure PrepareResult where
  services : List (String × Service)
  patterns : List (String × JsField)

/-- `Embed.prepare`: build `Embed.services` by reducing the merged entry
list with `Object.assign` on collisions, and `Embed.patterns` by reducing
the same list with plain assignment of each entry's `regex` field. -/
def prepare (defaults : List (String × Service))
    (cfg : List (String × ConfigVal)) : PrepareResult :=
  { services := objFromEntriesWith mergeService (prepareEntries defaults cfg),
    patterns := objFromEntriesWith (fun _ b => b)
      ((prepareEntries defaults cfg).map (fun kv => (kv.1, kv.2.regex))) }

/-- A concrete regex that rejects every URL (used as a test pattern). -/
def reNever : JSRegExp :=
  { test := fun _ => false, exec := fun _ => none }

/-- A concrete regex that accepts every URL and captures it whole (used as
a test pattern). -/
def reAlways : JSRegExp :=
  { test := fun _ => true, exec := fun s => some [JsPrim.str s] }

/-- A concrete YouTube-style regex: recognizes one fixed watch URL and
captures its 11-character video id. -/
def ytRe : JSRegExp :=
  { test := fun s => s == "https://www.youtube.com/watch?v=abc123XYZ9",
    exec := fun s =>
      if s == "https://www.youtube.com/watch?v=abc123XYZ9" then
        some [JsPrim.str s, JsPrim.str "abc123XYZ9"]
      else none }

/-- A concrete YouTube-style service descriptor. -/
def ytSvc : Service :=
  { regex := JsField.regexp ytRe,
    embedUrl := JsField.str "https://www.youtube.com/embed/<%= remote_id %>",
    html := JsField.str "<iframe/>",
    id := JsField.undefined }

/-- A concrete id extractor that always returns the empty string. -/
def emptyIdFn : List JsPrim → JsPrim := fun _ => JsPrim.str ""

/-- A concrete regex recognizing the single-character URL `U` with one
capture group. -/
def c5Re : JSRegExp :=
  { test := fun s => s == "U",
    exec := fun s =>
      if s == "U" then some [JsPrim.str "U", JsPrim.str "gid"] else none }

/-- A concrete service whose id extractor returns the empty string. -/
def c5Svc : Service :=
  { regex := JsField.regexp c5Re,
    embedUrl := JsField.str "https://emb/<%= remote_id %>/",
    html := JsField.str "<iframe/>",
    id := JsField.fn emptyIdFn }

/-- A concrete caller-supplied descriptor that is invalid because its
`embedUrl` is missing (`undefined`). -/
def c6BadRaw : Service :=
  { regex := JsField.regexp reAlways, embedUrl := JsField.undefined,
    html := JsField.str "<i/>", id := JsField.undefined }

/-- A concrete valid caller-supplied descriptor. -/
def c6GoodRaw : Service :=
  { regex := JsField.regexp reAlways, embedUrl := JsField.str "g/<%= remote_id %>",
    html := JsField.str "<g/>", id := JsField.undefined }

/-- A concrete default service that an invalid override must leave
unchanged. -/
def c6DefSvc : Service :=
  { regex := JsField.regexp reNever, embedUrl := JsField.str "b/<%= remote_id %>",
    html := JsField.str "<b/>", id := JsField.undefined }

/-- The default first-capture id extractor, as a named concrete value. -/
def c7DefIdFn : List JsPrim → JsPrim := fun ids => ids.headD JsPrim.undefined

/-- A concrete default service whose descriptor carries a custom id
extractor. -/
def c7DefSvc : Service :=
  { regex := JsField.regexp reNever, embedUrl := JsField.str "d/<%= remote_id %>",
    html := JsField.str "<d/>", id := JsField.fn c7DefIdFn }

/-- A concrete valid override for the same service name that omits the
`id` field. -/
def c7OvrRaw : Service :=
  { regex := JsField.regexp reAlways, embedUrl := JsField.str "o/<%= remote_id %>",
    html := JsField.str "<o/>", id := JsField.undefined }

/-- Membership characterization of `List.isPrefixOf` on character lists. -/
theorem isPrefixOf_iff_exists (pat l : List Char) :
    List.isPrefixOf pat l = true ↔ ∃ rest, l = pat ++ rest := by
  induction pat generalizing l with
  | nil => simp [List.isPrefixOf]
  | cons a pat ih =>
    cases l with
    | nil => simp [List.isPrefixOf]
    | cons b l =>
      simp only [List.isPrefixOf, Bool.and_eq_true, beq_iff_eq, ih,
        List.cons_append, List.cons.injEq]
      constructor
      · rintro ⟨rfl, rest, rfl⟩
        exact ⟨rest, rfl, rfl⟩
      · rintro ⟨rest, rfl, rfl⟩
        exact ⟨rfl, rest, rfl⟩

/-- `containsSub` decides the existence of an occurrence of the pattern
anywhere in the subject. -/
theorem containsSub_iff_exists (pat l : List Char) :
    containsSub pat l = true ↔ ∃ l1 l2, l = l1 ++ pat ++ l2 := by
  induction l with
  | nil =>
    simp only [containsSub, List.isEmpty_iff]
    constructor
    · rintro rfl
      exact ⟨[], [], rfl⟩
    · rintro ⟨l1, l2, h⟩
      rcases List.append_eq_nil.mp h.symm with ⟨h1, h2⟩
      exact (List.append_eq_nil.mp h1).2
  | cons c rest ih =>
    simp only [containsSub, Bool.or_eq_true, isPrefixOf_iff_exists, ih]
    constructor
    · rintro (⟨r, hr⟩ | ⟨l1, l2, rfl⟩)
      · exact ⟨[], r, by simp [hr]⟩
      · exact ⟨c :: l1, l2, rfl⟩
    · rintro ⟨l1, l2, h⟩
      cases l1 with
      | nil =>
        exact Or.inl ⟨l2, by simpa using h⟩
      | cons c1 l1 =>
        simp only [List.cons_append, List.cons.injEq] at h
        exact Or.inr ⟨l1, l2, h.2⟩

/-- `firstNonEmpty` on the empty chain. -/
theorem firstNonEmpty_nil : firstNonEmpty [] = "" := rfl

/-- `firstNonEmpty` unfolds like a JavaScript `||` chain. -/
theorem firstNonEmpty_cons (o : Option String) (rest : List (Option String)) :
    firstNonEmpty (o :: rest) = jsOrStr o (firstNonEmpty rest) := by
  cases o with
  | none => simp [firstNonEmpty, jsOrStr, List.find?]
  | some s =>
    by_cases hs : s = ""
    · subst hs
      simp [firstNonEmpty, jsOrStr, List.find?]
    · have h1 : (s != "") = true := by simp [hs]
      simp [firstNonEmpty, jsOrStr, List.find?, h1, hs]

/-- Lookup distributes over list append, preferring the left part. -/
theorem lookupKV_append_eq {α : Type} (l1 l2 : List (String × α)) (k : String) :
    lookupKV (l1 ++ l2) k =
      match lookupKV l1 k with
      | some v => some v
      | none => lookupKV l2 k := by
  induction l1 with
  | nil => simp [lookupKV]
  | cons kv rest ih =>
    by_cases h : kv.1 = k
    · simp [lookupKV, h]
    · simp [lookupKV, h, ih]

/-- Lookup misses exactly the keys that are absent. -/
theorem lookupKV_eq_none_iff {α : Type} (l : List (String × α)) (k : String) :
    lookupKV l k = none ↔ k ∉ l.map Prod.fst := by
  induction l with
  | nil => simp [lookupKV]
  | cons kv rest ih =>
    by_cases h : kv.1 = k
    · simp [lookupKV, h]
    · simp [lookupKV, h, ih, Ne.symm h]

/-- A successful lookup returns a pair of the list. -/
theorem mem_of_lookupKV {α : Type} (l : List (String × α)) (k : String) (v : α)
    (h : lookupKV l k = some v) : (k, v) ∈ l := by
  induction l with
  | nil => simp [lookupKV] at h
  | cons kv rest ih =>
    by_cases hk : kv.1 = k
    · simp only [lookupKV, hk, if_pos] at h
      cases h
      subst hk
      exact List.mem_cons_self _ _
    · simp only [lookupKV, hk, if_neg, not_false_iff] at h
      exact List.mem_cons_of_mem _ (ih h)

/-- With duplicate-free keys, membership determines lookup. -/
theorem lookupKV_of_mem_nodup {α : Type} (l : List (String × α)) (k : String) (v : α)
    (hnd : (l.map Prod.fst).Nodup) (hmem : (k, v) ∈ l) : lookupKV l k = some v := by
  induction l with
  | nil => simp at hmem
  | cons kv rest ih =>
    simp only [List.map_cons, List.nodup_cons] at hnd
    rcases List.mem_cons.mp hmem with heq | hmem'
    · subst heq
      simp [lookupKV]
    · have hk : kv.1 ≠ k := by
        intro hk
        exact hnd.1 (hk ▸ List.mem_map_of_mem Prod.fst hmem')
      simp [lookupKV, hk, ih hnd.2 hmem']

/-- With duplicate-free keys, reversing the list does not change lookup. -/
theorem lookupKV_reverse_eq {α : Type} (l : List (String × α)) (k : String)
    (hnd : (l.map Prod.fst).Nodup) : lookupKV l.reverse k = lookupKV l k := by
  have hndr : (l.reverse.map Prod.fst).Nodup := by
    rw [List.map_reverse]
    exact List.nodup_reverse.mpr hnd
  cases h : lookupKV l k with
  | some v =>
    exact lookupKV_of_mem_nodup _ _ _ hndr (List.mem_reverse.mpr (mem_of_lookupKV _ _ _ h))
  | none =>
    rw [lookupKV_eq_none_iff] at h ⊢
    rw [List.map_reverse]
    simpa using h

/-- Lookup through a filter that only inspects the key. -/
theorem lookupKV_filter_key {α : Type} (q : String → Bool) (l : List (String × α)) (k : String) :
    lookupKV (l.filter (fun kv => q kv.1)) k =
      if q k then lookupKV l k else none := by
  induction l with
  | nil => simp [lookupKV]
  | cons kv rest ih =>
    by_cases hq : q kv.1
    · by_cases hk : kv.1 = k
      · subst hk
        simp [List.filter_cons, hq, lookupKV]
      · simp [List.filter_cons, hq, lookupKV, hk, ih]
    · by_cases hk : kv.1 = k
      · subst hk
        simp [List.filter_cons, hq, lookupKV, ih]
      · simp [List.filter_cons, hq, lookupKV, hk, ih]

/-- Upserting key `k` makes `k` resolve to the (merged) new value, for a
merge that always keeps the later entry. -/
theorem lookupKV_objUpsert_same {α : Type} (merge : α → α → α)
    (hm : ∀ a b, merge a b = b) (l : List (String × α)) (k : String) (v : α) :
    lookupKV (objUpsert merge l k v) k = some v := by
  unfold objUpsert
  by_cases hany : l.any (fun kv => kv.1 == k)
  · rw [if_pos hany]
    induction l with
    | nil => simp at hany
    | cons kv rest ih =>
      by_cases hk : kv.1 = k
      · simp [lookupKV, hk, hm]
      · have hrest : rest.any (fun kv => kv.1 == k) = true := by
          simpa [List.any_cons, hk] using hany
        simp [lookupKV, hk, ih hrest]
  · rw [if_neg hany]
    rw [lookupKV_append_eq]
    have hnone : lookupKV l k = none := by
      rw [lookupKV_eq_none_iff]
      intro hmem
      apply hany
      rw [List.any_eq_true]
      rcases List.mem_map.mp hmem with ⟨kv, hkv, hfst⟩
      exact ⟨kv, hkv, by simp [hfst]⟩
    simp [hnone, lookupKV]

/-- Replacing the value at key `k` in place does not change the lookup of
any other key. -/
theorem lookupKV_map_replace_diff {α : Type} (merge : α → α → α)
    (l : List (String × α)) (k k' : String) (v : α) (hne : k' ≠ k) :
    lookupKV (l.map (fun kv => if kv.1 = k then (kv.1, merge kv.2 v) else kv)) k' =
      lookupKV l k' := by
  induction l with
  | nil => rfl
  | cons kv rest ih =>
    by_cases hk : kv.1 = k
    · simp [lookupKV, hk, Ne.symm hne, ih]
    · by_cases hk2 : kv.1 = k'
      · simp [lookupKV, hk, hk2, hne]
      · simp [lookupKV, hk, hk2, ih]

/-- Upserting key `k` does not change the lookup of any other key. -/
theorem lookupKV_objUpsert_diff {α : Type} (merge : α → α → α)
    (l : List (String × α)) (k k' : String) (v : α) (hne : k' ≠ k) :
    lookupKV (objUpsert merge l k v) k' = lookupKV l k' := by
  rcases lookupKV_map_replace_diff merge l k k' v hne with hmap
  unfold objUpsert
  by_cases hany : l.any (fun kv => kv.1 == k)
  · rw [if_pos hany]
    exact hmap
  · rw [if_neg hany]
    rw [lookupKV_append_eq]
    cases h : lookupKV l k' with
    | some v' => simp
    | none => simp [lookupKV, Ne.symm hne]

/-- Lookup after the object-building fold: for a merge that keeps the
later entry, the last occurrence of a key in the entry list wins, with the
accumulator as fallback. -/
theorem lookupKV_objFoldAux {α : Type} (merge : α → α → α)
    (hm : ∀ a b, merge a b = b) (entries : List (String × α)) (k : String) :
    ∀ acc, lookupKV (entries.foldl (fun acc kv => objUpsert merge acc kv.1 kv.2) acc) k =
      match lookupKV entries.reverse k with
      | some v => some v
      | none => lookupKV acc k := by
  induction entries with
  | nil =>
    intro acc
    simp [lookupKV]
  | cons e es ih =>
    intro acc
    rw [List.foldl_cons, ih]
    rw [List.reverse_cons, lookupKV_append_eq]
    cases h : lookupKV es.reverse k with
    | some v => rfl
    | none =>
      by_cases hk : e.1 = k
      · subst hk
        simp [lookupKV, lookupKV_objUpsert_same merge hm]
      · simp [lookupKV, hk, lookupKV_objUpsert_diff merge acc e.1 k e.2 (Ne.symm hk)]

/-- Lookup in a `reduce`-built object: the last occurrence of a key in the
entry list wins. -/
theorem lookupKV_objFromEntriesWith {α : Type} (merge : α → α → α)
    (hm : ∀ a b, merge a b = b) (entries : List (String × α)) (k : String) :
    lookupKV (objFromEntriesWith merge entries) k = lookupKV entries.reverse k := by
  rw [objFromEntriesWith, lookupKV_objFoldAux merge hm]
  cases h : lookupKV entries.reverse k <;> simp [lookupKV]

/-- `Object.assign` on the registry always keeps the later entry, because
a user-supplied entry owns all four modeled fields. -/
theorem mergeService_eq_right (a b : Service) : mergeService a b = b := rfl

/-- Lookup in the built `Embed.services` is lookup in the reversed merged
entry list. -/
theorem lookupKV_prepare_services (D : List (String × Service))
    (cfg : List (String × ConfigVal)) (k : String) :
    lookupKV (prepare D cfg).services k = lookupKV (prepareEntries D cfg).reverse k :=
  lookupKV_objFromEntriesWith mergeService (fun _ _ => rfl) _ k

/-- The keys of the validated user services form a sublist of the keys of
the configuration. -/
theorem userEntries_keys_sublist (cfg : List (String × ConfigVal)) :
    ((userEntries cfg).map Prod.fst).Sublist (cfg.map Prod.fst) := by
  induction cfg with
  | nil => simp [userEntries]
  | cons kv rest ih =>
    simp only [userEntries, List.filterMap_cons] at ih ⊢
    cases hv : kv.2 with
    | obj raw =>
      by_cases hc : checkServiceConfig raw
      · simp only [hc, if_pos, List.map_cons]
        exact List.Sublist.cons₂ _ ih
      · simp only [hc]
        exact ih.cons _
    | bool b => exact ih.cons _
    | other => exact ih.cons _

/-- Inserting a service-object entry anywhere in the configuration does
not change the enabled-names list. -/
theorem enabledNames_mid_obj (cfg1 cfg2 : List (String × ConfigVal))
    (n : String) (raw : Service) :
    enabledNames (cfg1 ++ (n, ConfigVal.obj raw) :: cfg2) = enabledNames (cfg1 ++ cfg2) := by
  simp [enabledNames, List.filter_append, List.filter_cons]

/-- Inserting an invalid service-object entry anywhere in the
configuration does not change the validated user services. -/
theorem userEntries_mid_invalid (cfg1 cfg2 : List (String × ConfigVal))
    (n : String) (raw : Service) (h : checkServiceConfig raw = false) :
    userEntries (cfg1 ++ (n, ConfigVal.obj raw) :: cfg2) = userEntries (cfg1 ++ cfg2) := by
  simp [userEntries, List.filterMap_append, List.filterMap_cons, h]

/-- When no registered service is named `etc`, the table iterated by
`_checkedUrl` is the registered table with the generic entry appended. -/
theorem patternsWithEtc_eq_append (ps : List (String × JSRegExp))
    (hetc : ∀ kv ∈ ps, kv.1 ≠ "etc") :
    patternsWithEtc ps = ps ++ [("etc", etcRegex)] := by
  have h : ps.any (fun kv => kv.1 == "etc") = false := by
    rw [List.any_eq_false]
    intro kv hkv
    simp [hetc kv hkv]
  simp [patternsWithEtc, h]

/-- `find?` returns the element at index `i` when it satisfies the
predicate and all earlier elements do not. -/
theorem find_at_index {α : Type} (p : α → Bool) (l : List α) (i : Nat) (hi : i < l.length)
    (hp : p (l.get ⟨i, hi⟩) = true)
    (hbefore : ∀ j (hj : j < l.length), j < i → p (l.get ⟨j, hj⟩) = false) :
    l.find? p = some (l.get ⟨i, hi⟩) := by
  induction l generalizing i with
  | nil => exact absurd hi (by simp)
  | cons a rest ih =>
    cases i with
    | zero =>
      simp only [List.get] at hp
      simp [List.find?_cons, hp]
    | succ i =>
      have ha : p a = false := hbefore 0 (by simp) (Nat.succ_pos i)
      simp only [List.find?_cons, ha, cond_false]
      exact ih i (Nat.lt_of_succ_lt_succ hi) hp
        (fun j hj hlt => hbefore (j + 1) (Nat.succ_lt_succ hj) (Nat.succ_lt_succ hlt))

/-- C1: classification tries every registered pattern first (in table
order); if none matches, the URL falls into the generic `etc` bucket
exactly when the generic `http(s)://`-or-`www.` pattern matches, and
otherwise the result is the empty-string sentinel. -/
theorem c1_checkedUrl_classification (ps : List (String × JSRegExp)) (url : String)
    (hetc : ∀ kv ∈ ps, kv.1 ≠ "etc") :
    checkedUrl ps url =
      match ps.find? (fun kv => kv.2.test url) with
      | some kv => kv.1
      | none => if etcTest url then "etc" else "" := by
  rw [checkedUrl, patternsWithEtc_eq_append ps hetc, List.find?_append]
  cases h : ps.find? (fun kv => kv.2.test url) with
  | some kv => rfl
  | none =>
    show (match Option.or none (List.find? _ [("etc", etcRegex)]) with
      | some kv => kv.1
      | none => "") = _
    by_cases he : etcTest url
    · simp [List.find?_cons, etcRegex, he]
    · simp [List.find?_cons, etcRegex, he]

/-- Witness for C1: a registry whose single pattern rejects the URL, while
the generic pattern accepts it, classifies into the `etc` bucket. -/
theorem c1_checkedUrl_classification_witness :
    checkedUrl [("youtube", reNever)] "https://x.y" = "etc" := by
  rw [c1_checkedUrl_classification [("youtube", reNever)] "https://x.y" (by decide)]
  decide

/-- C2: first match wins — if the pattern at index `i` matches and no
earlier pattern does, classification returns the name at index `i`,
whatever later patterns would do. -/
theorem c2_checkedUrl_first_match_wins (ps : List (String × JSRegExp)) (url : String)
    (i : Nat) (hi : i < ps.length)
    (hetc : ∀ kv ∈ ps, kv.1 ≠ "etc")
    (hmatch : (ps.get ⟨i, hi⟩).2.test url = true)
    (hbefore : ∀ j (hj : j < ps.length), j < i → (ps.get ⟨j, hj⟩).2.test url = false) :
    checkedUrl ps url = (ps.get ⟨i, hi⟩).1 := by
  rw [checkedUrl, patternsWithEtc_eq_append ps hetc, List.find?_append,
    find_at_index (fun kv => kv.2.test url) ps i hi hmatch hbefore]
  rfl

/-- Witness for C2: with two later patterns also matching, the first
matching entry (index 1) provides the classification. -/
theorem c2_checkedUrl_first_match_wins_witness :
    checkedUrl [("miss", reNever), ("hit", reAlways), ("also", reAlways)] "u" = "hit" :=
  c2_checkedUrl_first_match_wins
    [("miss", reNever), ("hit", reAlways), ("also", reAlways)] "u" 1 (by decide)
    (by decide) (by decide)
    (fun j hj hlt => by
      have hj0 : j = 0 := Nat.lt_one_iff.mp hlt
      subst hj0
      rfl)

/-- C3 counterexample: a favicon that merely contains `https://` in its
query part — not an absolute secure-scheme URL — is passed through
unchanged instead of being normalized to the empty string. -/
theorem c3_icon_counterexample :
    (getOgData { emptyMeta with favicon := some "/icon.png?from=https://x" }).icon
        = "/icon.png?from=https://x"
    ∧ List.isPrefixOf "https://".toList "/icon.png?from=https://x".toList = false
    ∧ "/icon.png?from=https://x" ≠ "" :=
  ⟨by decide, by decide, by decide⟩

/-- C3 (amended): the icon field equals the favicon exactly when the
favicon contains the substring `https://` anywhere (not only when it is an
absolute secure-scheme URL), and is the empty string otherwise; the
insecure-scheme example of the specification still normalizes to the
empty string. -/
theorem c3_icon_substring_gate (r : RawMetadata) (s : String)
    (hfav : r.favicon = some s) :
    (getOgData r).icon = (if containsSub "https://".toList s.toList then s else "")
    ∧ (containsSub "https://".toList s.toList = true ↔
        ∃ l1 l2, s.toList = l1 ++ "https://".toList ++ l2)
    ∧ (getOgData { emptyMeta with favicon := some "http://insecure.example/icon.png" }).icon
        = "" :=
  ⟨by simp [getOgData, hfav], containsSub_iff_exists _ _, by decide⟩

/-- Witness for C3 (amended) at a concrete secure favicon. -/
theorem c3_icon_substring_gate_witness :
    (getOgData { emptyMeta with favicon := some "https://cdn/i.png" }).icon
      = (if containsSub "https://".toList "https://cdn/i.png".toList
          then "https://cdn/i.png" else "") :=
  (c3_icon_substring_gate { emptyMeta with favicon := some "https://cdn/i.png" }
    "https://cdn/i.png" rfl).1

/-- C4: every fallback-chain output field of the normalized preview equals
the first non-empty value of its ordered alias chain (defaulting to the
empty string), and the specification's concrete example holds. -/
theorem c4_og_fallback_chains (r : RawMetadata) :
    (getOgData r).title = firstNonEmpty [r.ogTitle, r.twitterTitle]
    ∧ (getOgData r).description = firstNonEmpty [r.ogDescription, r.twitterDescription]
    ∧ (getOgData r).imageUrl
        = firstNonEmpty [r.ogImage.bind OgImage.url, r.twitterImage.bind OgImage.url]
    ∧ (getOgData r).url = firstNonEmpty [r.ogUrl, r.requestUrl]
    ∧ (getOgData r).siteName
        = firstNonEmpty [r.ogSiteName, r.twitterSite, r.ogTitle, r.twitterTitle]
    ∧ (getOgData { emptyMeta with ogTitle := some "", twitterTitle := some "Hi" }).title
        = "Hi" := by
  refine ⟨?_, ?_, ?_, ?_, ?_, by decide⟩ <;>
    simp [getOgData, firstNonEmpty_cons, firstNonEmpty_nil]

/-- C5 counterexample: with an id extractor that returns the empty string
on the actual capture list, `_getEmbedData` still succeeds and produces a
locator (the template with the placeholder replaced by nothing) — there is
no `IdExtractionFailure`. -/
theorem c5_counterexample_empty_id_succeeds :
    emptyIdFn [JsPrim.str "gid"] = JsPrim.str ""
    ∧ getEmbedData initialState c5Svc "U"
        = some ({ initialState with embed := some "https://emb//" },
                JsField.str "<iframe/>", "https://emb//") :=
  ⟨rfl, rfl⟩

/-- C5 (amended): `_getEmbedData` performs no emptiness or type check on
the extracted id — when the extractor returns the empty string, resolution
still succeeds, substituting the empty string into the template. -/
theorem c5_empty_id_still_resolves (st : EmbedState) (svc : Service) (src u : String)
    (re : JSRegExp) (f : List JsPrim → JsPrim) (arr : List JsPrim)
    (hre : svc.regex = JsField.regexp re) (hu : svc.embedUrl = JsField.str u)
    (hid : svc.id = JsField.fn f) (hex : re.exec src = some arr)
    (hempty : f (arr.drop 1) = JsPrim.str "") :
    getEmbedData st svc src =
      some ({ st with embed := some (replaceRemoteId "" u) },
            svc.html, replaceRemoteId "" u) := by
  simp only [getEmbedData, embedOf, hre, hu, hex, idResult, hid, hempty,
    JsPrim.toReplacement]

/-- Witness for C5 (amended) at the concrete empty-id service. -/
theorem c5_empty_id_still_resolves_witness :
    getEmbedData initialState c5Svc "U"
      = some ({ initialState with
                  embed := some (replaceRemoteId "" "https://emb/<%= remote_id %>/") },
              c5Svc.html, replaceRemoteId "" "https://emb/<%= remote_id %>/") :=
  c5_empty_id_still_resolves initialState c5Svc "U" "https://emb/<%= remote_id %>/"
    c5Re emptyIdFn [JsPrim.str "U", JsPrim.str "gid"] rfl rfl rfl rfl rfl

/-- C8: embed resolution is idempotent — a second call with the same
service and URL, starting from the state the first call produced, returns
the same state, markup and locator. -/
theorem c8_getEmbedData_idempotent (st st2 : EmbedState) (svc : Service) (src : String)
    (h : JsField) (e : String)
    (h1 : getEmbedData st svc src = some (st2, h, e)) :
    getEmbedData st2 svc src = some (st2, h, e) := by
  rw [getEmbedData] at h1 ⊢
  cases heq : embedOf svc src with
  | none => simp [heq] at h1
  | some pr =>
    obtain ⟨h0, e0⟩ := pr
    simp only [heq, Option.some.injEq, Prod.mk.injEq] at h1 ⊢
    obtain ⟨hst, hh, he⟩ := h1
    subst hst
    subst hh
    subst he
    exact ⟨rfl, rfl, rfl⟩

/-- Witness for C8 at the concrete YouTube-style service. -/
theorem c8_getEmbedData_idempotent_witness :
    getEmbedData { initialState with embed := some "https://www.youtube.com/embed/abc123XYZ9" }
        ytSvc "https://www.youtube.com/watch?v=abc123XYZ9"
      = some ({ initialState with embed := some "https://www.youtube.com/embed/abc123XYZ9" },
              JsField.str "<iframe/>", "https://www.youtube.com/embed/abc123XYZ9") :=
  c8_getEmbedData_idempotent initialState _ ytSvc _ _ _ rfl

/-- C9: feeding `save()` output back into the constructor reproduces the
same stored data — service, source, embed and caption — for any instance
state reachable through the `data` setter. -/
theorem c9_save_roundtrip (st : EmbedState) (d : IncomingData) :
    mkEmbed (saveData (setData st d)) = setData st d := by
  cases hd : d.caption with
  | some s =>
    by_cases hs : s = ""
    · subst hs
      cases hst : st.caption with
      | some c =>
        by_cases hc : c = "" <;>
          simp [mkEmbed, setData, saveData, initialState, strTruthy, hd, hst, hc]
      | none => simp [mkEmbed, setData, saveData, initialState, strTruthy, hd, hst]
    · simp [mkEmbed, setData, saveData, initialState, strTruthy, hd, hs]
  | none =>
    cases hst : st.caption with
    | some c =>
      by_cases hc : c = "" <;>
        simp [mkEmbed, setData, saveData, initialState, strTruthy, hd, hst, hc]
    | none => simp [mkEmbed, setData, saveData, initialState, strTruthy, hd, hst]

/-- C10: the `data` setter keeps the previously stored caption (defaulting
to the empty string) unless the incoming object carries a non-empty
caption, and in particular the `{service, source}` object written by
`_checkedUrl` always preserves the prior caption. -/
theorem c10_caption_preserved (st : EmbedState) (d : IncomingData)
    (ps : List (String × JSRegExp)) (url : String) :
    (setData st d).caption
        = (if strTruthy d.caption then d.caption else some (st.caption.getD ""))
    ∧ (checkedUrlStep st ps url).caption = some (st.caption.getD "") := by
  constructor
  · by_cases h1 : strTruthy d.caption
    · simp [setData, h1]
    · cases hst : st.caption with
      | none => simp [setData, h1, hst, strTruthy]
      | some c =>
        by_cases hc : c = "" <;> simp [setData, h1, hst, strTruthy, hc]
  · cases hst : st.caption with
    | none => simp [checkedUrlStep, checkedUrlData, setData, hst, strTruthy]
    | some c =>
      by_cases hc : c = "" <;>
        simp [checkedUrlStep, checkedUrlData, setData, hst, strTruthy, hc]

/-- Truthiness plus `instanceof RegExp` amounts to being a `RegExp`. -/
theorem fieldRegexOk (v : JsField) :
    (v.truthy && isRegexpField v) = true ↔ ∃ re, v = JsField.regexp re := by
  cases v <;> simp [JsField.truthy, isRegexpField]

/-- Truthiness plus `typeof === 'string'` amounts to being a non-empty
string. -/
theorem fieldStrOk (v : JsField) :
    (v.truthy && isStrField v) = true ↔ ∃ s, v = JsField.str s ∧ s ≠ "" := by
  cases v <;> simp [JsField.truthy, isStrField]

/-- The id check accepts exactly `undefined` and functions. -/
theorem fieldIdOk (v : JsField) :
    isIdOkField v = true ↔ (v = JsField.undefined ∨ ∃ f, v = JsField.fn f) := by
  cases v <;> simp [isIdOkField]

/-- C6: a caller-supplied descriptor is accepted exactly when its pattern
is a genuine regex, its embed template and preview markup are non-empty
strings, and its id, when present, is callable; an invalid descriptor is
silently dropped, leaving `prepare`'s entire result (in particular any
prior/default entry of the same name) unchanged; a valid descriptor enters
the registry under its name. -/
theorem c6_checkServiceConfig_validation (raw : Service) (n : String)
    (D : List (String × Service)) (cfg1 cfg2 : List (String × ConfigVal)) :
    (checkServiceConfig raw = true ↔
      ((∃ re, raw.regex = JsField.regexp re) ∧
       (∃ s, raw.embedUrl = JsField.str s ∧ s ≠ "") ∧
       (∃ s, raw.html = JsField.str s ∧ s ≠ "") ∧
       (raw.id = JsField.undefined ∨ ∃ f, raw.id = JsField.fn f)))
    ∧ (checkServiceConfig raw = false →
        prepare D (cfg1 ++ (n, ConfigVal.obj raw) :: cfg2) = prepare D (cfg1 ++ cfg2))
    ∧ (checkServiceConfig raw = true →
        lookupKV (prepare D [(n, ConfigVal.obj raw)]).services n = some raw) := by
  refine ⟨?_, ?_, ?_⟩
  · rw [checkServiceConfig, Bool.and_eq_true, Bool.and_eq_true, Bool.and_eq_true,
      fieldRegexOk, fieldStrOk, fieldStrOk, fieldIdOk]
    tauto
  · intro h
    have h1 := enabledNames_mid_obj cfg1 cfg2 n raw
    have h2 := userEntries_mid_invalid cfg1 cfg2 n raw h
    simp only [prepare, prepareEntries, h1, h2]
  · intro h
    rw [lookupKV_prepare_services]
    simp [prepareEntries, enabledNames, userEntries, h, List.reverse_append, lookupKV]

/-- Witness for C6: the invalid descriptor (missing `embedUrl`) leaves the
prepared tables exactly as without it; the valid descriptor is looked up
under its name. -/
theorem c6_checkServiceConfig_validation_witness :
    prepare [("x", c6DefSvc)] [("x", ConfigVal.obj c6BadRaw)] = prepare [("x", c6DefSvc)] []
    ∧ lookupKV (prepare [("x", c6DefSvc)] [("x", ConfigVal.obj c6GoodRaw)]).services "x"
        = some c6GoodRaw :=
  ⟨(c6_checkServiceConfig_validation c6BadRaw "x" [("x", c6DefSvc)] [] []).2.1 rfl,
   (c6_checkServiceConfig_validation c6GoodRaw "x" [("x", c6DefSvc)] [] []).2.2 rfl⟩

/-- C7 counterexample: a valid override that omits `id` does not preserve
the default entry's id extractor — the merged registry entry carries
`undefined` where the default had a function. -/
theorem c7_counterexample_id_overwritten :
    lookupKV (prepare [("x", c7DefSvc)] [("x", ConfigVal.obj c7OvrRaw)]).services "x"
        = some c7OvrRaw
    ∧ c7OvrRaw.id = JsField.undefined
    ∧ c7DefSvc.id = JsField.fn c7DefIdFn
    ∧ JsField.undefined ≠ JsField.fn c7DefIdFn :=
  ⟨rfl, rfl, rfl, fun h => JsField.noConfusion h⟩

/-- C7 (amended): with duplicate-free names on both sides, a validated
override always wins wholesale — the registry entry under its name is the
override's four repacked fields (so an omitted `id` becomes `undefined`
rather than preserving the default's extractor) regardless of the
enable-list; names without an override resolve to the default exactly when
the enable-list is empty or names them. -/
theorem c7_registry_merge_semantics (D : List (String × Service))
    (cfg : List (String × ConfigVal)) (k : String)
    (hD : (D.map Prod.fst).Nodup) (hc : (cfg.map Prod.fst).Nodup) :
    lookupKV (prepare D cfg).services k =
      match lookupKV (userEntries cfg) k with
      | some u => some u
      | none =>
        if enabledNames cfg = [] ∨ (enabledNames cfg).contains k = true
        then lookupKV D k else none := by
  rw [lookupKV_prepare_services, prepareEntries, List.reverse_append, lookupKV_append_eq]
  have hu : ((userEntries cfg).map Prod.fst).Nodup :=
    List.Nodup.sublist (userEntries_keys_sublist cfg) hc
  rw [lookupKV_reverse_eq _ _ hu]
  cases hlu : lookupKV (userEntries cfg) k with
  | some u => rfl
  | none =>
    by_cases hen : enabledNames cfg = []
    · rw [if_neg (by simp [hen]), lookupKV_reverse_eq _ _ hD, if_pos (Or.inl hen)]
    · rw [if_pos hen]
      have hf : ((D.filter (fun kv => (enabledNames cfg).contains kv.1)).map Prod.fst).Nodup :=
        List.Nodup.sublist (List.Sublist.map Prod.fst (List.filter_sublist D)) hD
      rw [lookupKV_reverse_eq _ _ hf, lookupKV_filter_key]
      by_cases hk : (enabledNames cfg).contains k = true
      · rw [if_pos hk, if_pos (Or.inr hk)]
      · rw [if_neg hk, if_neg (by rintro (h | h) <;> [exact hen h; exact hk h])]

/-- Witness for C7 (amended): the override for `x` resolves to the
override itself. -/
theorem c7_registry_merge_semantics_witness :
    lookupKV (prepare [("x", c7DefSvc)] [("x", ConfigVal.obj c7OvrRaw)]).services "x"
      = some c7OvrRaw :=
  c7_registry_merge_semantics [("x", c7DefSvc)] [("x", ConfigVal.obj c7OvrRaw)] "x"
    (by decide) (by decide)
